import Mathlib

/-!
Verification of the `ask` command handler of the Knoll Telegram bot
(`src/main.py`), together with the pure helpers it relies on: the
per-user rate gate (`last_message_time` / `MIN_MESSAGE_INTERVAL`), the
long-answer chunking (`[answer[i : i + 4096] for i in range(0, len(answer), 4096)]`)
and the `RetryAfter`-aware dispatch of the reply.

Modelling conventions:
  * wall-clock times (`time.time()`) are rationals;
  * the Python dict `last_message_time` is an association list with
    dict-style lookup and overwrite;
  * answer strings are Lean `String`s (a sequence of characters, as in
    Python), chunk slicing acts on the character list;
  * the agent invocation (`Runner.run`) and each `reply_text` call are
    the two external effects; their behaviour is supplied by the caller,
    the reply channel as an oracle `Nat → SendOutcome` consulted at the
    i-th `reply_text` call of the handler;
  * the handler's observable behaviour is a trace of events: state
    writes, the agent call, `reply_text` attempts, `asyncio.sleep`
    pacing delays, and `logger.warning`/`logger.error` calls (whose text
    the handler itself formats; `logger.info` lines are not observable
    in any property below and are omitted);
  * an exception that escapes the handler is reported in the `crash`
    field of the result (`none` = the handler returned normally).
-/

namespace Knoll

/-- `MIN_MESSAGE_INTERVAL = 2.0` (seconds). -/
def MIN_MESSAGE_INTERVAL : ℚ := 2

/-- The `last_message_time` dict: user id → last accepted-request time. -/
abbrev RateState := List (Int × ℚ)

/-- Dict lookup `last_message_time.get(uid)`. -/
def lookupTime : RateState → Int → Option ℚ
  | [], _ => none
  | (k, v) :: rest, uid => if k = uid then some v else lookupTime rest uid

/-- Dict store `last_message_time[uid] = t` (overwrites an existing entry). -/
def setTime : RateState → Int → ℚ → RateState
  | [], uid, t => [(uid, t)]
  | (k, v) :: rest, uid, t =>
      if k = uid then (uid, t) :: rest else (k, v) :: setTime rest uid t

/-- The rate-limiting check of lines 74–76 of `main.py`:
`user_id in last_message_time and current_time - last_message_time[user_id] < MIN_MESSAGE_INTERVAL`. -/
def rateLimited (st : RateState) (userId : Int) (now : ℚ) : Bool :=
  match lookupTime st userId with
  | none => false
  | some t => decide (now - t < MIN_MESSAGE_INTERVAL)

/-- `"Please wait a moment before asking another question..."` -/
def rateLimitMsg : String := "Please wait a moment before asking another question..."

/-- `"you forgot to ask ..."` -/
def emptyQueryMsg : String := "you forgot to ask ..."

/-- `f"Knoll encountered an error: {e}"` -/
def errorMsg (desc : String) : String := "Knoll encountered an error: " ++ desc

/-- Warning of line 86: `f"Rate limit exceeded while sending rate limit message: {e.retry_after} seconds"`. -/
def rateLimitSendWarn (n : ℕ) : String :=
  "Rate limit exceeded while sending rate limit message: " ++ toString n ++ " seconds"

/-- Warning of lines 97 and 168: `f"Rate limit exceeded while sending error message: {e.retry_after} seconds"`. -/
def errSendWarn (n : ℕ) : String :=
  "Rate limit exceeded while sending error message: " ++ toString n ++ " seconds"

/-- Warning of line 128: `f"Rate limit exceeded while sending chunk {i+1}. Retry in {e.retry_after} seconds"`
(`i` is the 0-based chunk index). -/
def chunkRetryWarn (i n : ℕ) : String :=
  "Rate limit exceeded while sending chunk " ++ toString (i + 1) ++ ". Retry in "
    ++ toString n ++ " seconds"

/-- Warning of line 138: `f"Rate limit exceeded while sending response. Retry in {retry_after} seconds"`. -/
def shortRetryWarn (n : ℕ) : String :=
  "Rate limit exceeded while sending response. Retry in " ++ toString n ++ " seconds"

/-- Fallback notice of line 143:
`f"Response ready but rate limited. Please wait {retry_after} seconds before asking again."`. -/
def fallbackMsg (n : ℕ) : String :=
  "Response ready but rate limited. Please wait " ++ toString n
    ++ " seconds before asking again."

/-- Warning of line 153:
`f"Rate limit exceeded during agent execution for {user_name}: {retry_after} seconds"`. -/
def agentRetryWarn (userName : String) (n : ℕ) : String :=
  "Rate limit exceeded during agent execution for " ++ userName ++ ": "
    ++ toString n ++ " seconds"

/-- Reply of line 157: `f"Rate limit exceeded. Please wait {retry_after} seconds before trying again."`. -/
def agentRetryAfterMsg (n : ℕ) : String :=
  "Rate limit exceeded. Please wait " ++ toString n ++ " seconds before trying again."

/-- Warning of line 160: `f"Rate limit exceeded: {retry_after} seconds"`. -/
def retryPlainWarn (n : ℕ) : String :=
  "Rate limit exceeded: " ++ toString n ++ " seconds"

/-- Error log of line 162: `f"Error processing query for {user_name}: {e}"`. -/
def processErrorLog (userName desc : String) : String :=
  "Error processing query for " ++ userName ++ ": " ++ desc

/-- Outcome of one `reply_text` call on the reply channel:
success, a raised `telegram.error.RetryAfter(n)`, or any other raised
exception (carrying its rendered text). -/
inductive SendOutcome where
  | ok
  | retryAfter (n : ℕ)
  | rejected (reason : String)
deriving DecidableEq

/-- Rendered text of a raised send failure (the `{e}` of line 146). -/
def sendExnText : SendOutcome → String
  | .ok => ""
  | .retryAfter n => "RetryAfter: " ++ toString n
  | .rejected reason => reason

/-- Warning of line 146: `f"Error sending rate limit message: {e}"`. -/
def fallbackFailWarn (o : SendOutcome) : String :=
  "Error sending rate limit message: " ++ sendExnText o

/-- Outcome of the agent invocation `Runner.run(knoll_agent, user_query)`:
a final answer, a raised `RetryAfter(n)`, or any other raised exception
(carrying its rendered text). -/
inductive AgentOutcome where
  | ok (answer : String)
  | retryAfter (n : ℕ)
  | err (desc : String)
deriving DecidableEq

/-- Observable events of one `ask` invocation, in program order. -/
inductive Event where
  /-- `last_message_time[uid] = t` (line 105). -/
  | wrote (uid : Int) (t : ℚ)
  /-- `Runner.run(knoll_agent, query)` was invoked (line 108). -/
  | agentCall (query : String)
  /-- `update.message.reply_text(text)` was invoked. -/
  | attempt (text : String)
  /-- `asyncio.sleep(d)` (lines 114 and 125). -/
  | slept (d : ℚ)
  /-- `logger.warning(text)`. -/
  | warnLog (text : String)
  /-- `logger.error(text)`. -/
  | errorLog (text : String)
deriving DecidableEq

/-- Result of one `ask` invocation: the final `last_message_time` state,
the event trace, and the text of an exception escaping the handler
(`none` when it returns normally). -/
structure AskResult where
  state : RateState
  events : List Event
  crash : Option String
deriving DecidableEq

/-- The `reply_text` attempts of a trace, in order. -/
def attemptsOf (evs : List Event) : List String :=
  evs.filterMap fun e =>
    match e with
    | .attempt text => some text
    | _ => none

/-- The agent invocations of a trace, in order. -/
def agentCallsOf (evs : List Event) : List String :=
  evs.filterMap fun e =>
    match e with
    | .agentCall q => some q
    | _ => none

/-- A trace with the log lines removed. -/
def nonLogEvents (evs : List Event) : List Event :=
  evs.filter fun e =>
    match e with
    | .warnLog _ => false
    | .errorLog _ => false
    | _ => true

/-- The chunk slicing of line 119,
`[answer[i : i + size] for i in range(0, len(answer), size)]`,
on the character list. `range(0, n, size)` has `⌈n / size⌉` elements. -/
def sliceChunks (l : List Char) (size : ℕ) : List (List Char) :=
  (List.range ((l.length + (size - 1)) / size)).map fun k => (l.drop (size * k)).take size

/-- The texts `reply_text` receives for an answer in the dispatch step
(lines 116–134): the 4096-slices when the answer exceeds 4096
characters, otherwise the answer itself. -/
def dispatchTexts (answer : String) : List String :=
  if answer.length > 4096 then (sliceChunks answer.data 4096).map String.mk else [answer]

/-- How the chunk-sending loop of lines 121–130 ended: ran through all
chunks, stopped by `break` on `RetryAfter`, or a non-`RetryAfter`
exception was raised out of it. -/
inductive LoopExit where
  | done
  | broke
  | raised (reason : String)
deriving DecidableEq

/-- The chunk-sending loop of lines 121–130. `k` is both the 0-based
position in the chunk list and the index of the next reply-channel call;
returns the produced events, the next channel index, and how the loop
ended. -/
def sendChunks (channel : ℕ → SendOutcome) : ℕ → List String → List Event × ℕ × LoopExit
  | k, [] => ([], k, .done)
  | k, c :: rest =>
    match channel k with
    | .ok =>
      if rest = [] then ([Event.attempt c], k + 1, .done)
      else
        let r := sendChunks channel (k + 1) rest
        (Event.attempt c :: Event.slept 1 :: r.1, r.2.1, r.2.2)
    | .retryAfter n =>
      ([Event.attempt c, Event.warnLog (chunkRetryWarn k n)], k + 1, .broke)
    | .rejected reason => ([Event.attempt c], k + 1, .raised reason)

/-- The generic `except Exception` handler of lines 161–169: log at
error level, reply with `errorMsg`, swallow a `RetryAfter` of that
reply, let any other exception of it escape. `k` is the channel index of
the reply attempt. -/
def genericErrorTail (userName desc : String) (channel : ℕ → SendOutcome) (k : ℕ) :
    List Event × Option String :=
  match channel k with
  | .ok =>
    ([Event.errorLog (processErrorLog userName desc), Event.attempt (errorMsg desc)], none)
  | .retryAfter n =>
    ([Event.errorLog (processErrorLog userName desc), Event.attempt (errorMsg desc),
      Event.warnLog (errSendWarn n)], none)
  | .rejected r =>
    ([Event.errorLog (processErrorLog userName desc), Event.attempt (errorMsg desc)], some r)

/-- Lines 90–169 of `ask`: validation, timestamp write, agent call and
dispatch, after the shutdown gate and the rate-limiting check have been
passed. -/
def askValidated (st : RateState) (userId : Int) (userName userQuery : String)
    (now : ℚ) (agent : AgentOutcome) (channel : ℕ → SendOutcome) : AskResult :=
  if userQuery = "" then
    match channel 0 with
    | .ok => ⟨st, [Event.attempt emptyQueryMsg], none⟩
    | .retryAfter n =>
      ⟨st, [Event.attempt emptyQueryMsg, Event.warnLog (errSendWarn n)], none⟩
    | .rejected r => ⟨st, [Event.attempt emptyQueryMsg], some r⟩
  else
    let st2 := setTime st userId now
    let pre : List Event := [Event.wrote userId now, Event.agentCall userQuery]
    match agent with
    | .ok answer =>
      if answer.length > 4096 then
        let chunks := (sliceChunks answer.data 4096).map String.mk
        let r := sendChunks channel 0 chunks
        match r.2.2 with
        | .done => ⟨st2, pre ++ [Event.slept 1] ++ r.1, none⟩
        | .broke => ⟨st2, pre ++ [Event.slept 1] ++ r.1, none⟩
        | .raised reason =>
          let tail := genericErrorTail userName reason channel r.2.1
          ⟨st2, pre ++ [Event.slept 1] ++ r.1 ++ tail.1, tail.2⟩
      else
        match channel 0 with
        | .ok => ⟨st2, pre ++ [Event.slept 1, Event.attempt answer], none⟩
        | .retryAfter n =>
          let fb := Event.attempt (fallbackMsg n)
          let tail :=
            match channel 1 with
            | .ok => [fb]
            | .retryAfter m => [fb, Event.warnLog (fallbackFailWarn (SendOutcome.retryAfter m))]
            | .rejected r2 => [fb, Event.warnLog (fallbackFailWarn (SendOutcome.rejected r2))]
          ⟨st2, pre ++ [Event.slept 1, Event.attempt answer,
            Event.warnLog (shortRetryWarn n)] ++ tail, none⟩
        | .rejected reason =>
          let tail := genericErrorTail userName reason channel 1
          ⟨st2, pre ++ [Event.slept 1, Event.attempt answer] ++ tail.1, tail.2⟩
    | .retryAfter n =>
      let evs :=
        match channel 0 with
        | .ok => [Event.attempt (agentRetryAfterMsg n)]
        | .retryAfter _ =>
          [Event.attempt (agentRetryAfterMsg n), Event.warnLog (retryPlainWarn n)]
        | .rejected _ =>
          [Event.attempt (agentRetryAfterMsg n), Event.warnLog (retryPlainWarn n)]
      ⟨st2, pre ++ [Event.warnLog (agentRetryWarn userName n)] ++ evs, none⟩
    | .err desc =>
      let tail := genericErrorTail userName desc channel 0
      ⟨st2, pre ++ tail.1, tail.2⟩

/-- The `ask` handler, lines 62–169 of `main.py`. `firstName` is
`update.effective_user.first_name` (`none` when missing), `args` is
`context.args`, `now` is `time.time()`, `agent` the behaviour of
`Runner.run`, `channel` the behaviour of the i-th `reply_text` call. -/
def ask (st : RateState) (shuttingDown : Bool) (userId : Int)
    (firstName : Option String) (args : List String) (now : ℚ)
    (agent : AgentOutcome) (channel : ℕ → SendOutcome) : AskResult :=
  if shuttingDown then ⟨st, [], none⟩
  else if rateLimited st userId now then
    match channel 0 with
    | .ok => ⟨st, [Event.attempt rateLimitMsg], none⟩
    | .retryAfter n =>
      ⟨st, [Event.attempt rateLimitMsg, Event.warnLog (rateLimitSendWarn n)], none⟩
    | .rejected r => ⟨st, [Event.attempt rateLimitMsg], some r⟩
  else
    askValidated st userId (firstName.getD "Unknown") (String.intercalate " " args)
      now agent channel

/-- One inbound command together with the environment behaviour while
handling it. -/
structure Cmd where
  shuttingDown : Bool
  uid : Int
  firstName : Option String
  args : List String
  now : ℚ
  agent : AgentOutcome
  channel : ℕ → SendOutcome

/-- Fold of `ask` over a sequence of inbound commands, threading the
`last_message_time` state. -/
def runCmds (st : RateState) : List Cmd → RateState
  | [] => st
  | c :: rest =>
    runCmds (ask st c.shuttingDown c.uid c.firstName c.args c.now c.agent c.channel).state rest

/-! ## Helper lemmas: the rate-gate state -/

theorem lookupTime_setTime_self (st : RateState) (uid : Int) (t : ℚ) :
    lookupTime (setTime st uid t) uid = some t := by
  induction st with
  | nil => simp [setTime, lookupTime]
  | cons hd tl ih =>
    obtain ⟨k, v⟩ := hd
    by_cases hk : k = uid
    · simp [setTime, lookupTime, hk]
    · simp [setTime, lookupTime, hk, ih]

theorem lookupTime_setTime_ne (st : RateState) (uid b : Int) (t : ℚ) (hb : b ≠ uid) :
    lookupTime (setTime st uid t) b = lookupTime st b := by
  have hub : uid ≠ b := fun h => hb h.symm
  induction st with
  | nil => simp [setTime, lookupTime, hub]
  | cons hd tl ih =>
    obtain ⟨k, v⟩ := hd
    by_cases hk : k = uid
    · subst hk
      simp [setTime, lookupTime, hub]
    · by_cases hkb : k = b
      · simp [setTime, lookupTime, hk, hkb, hb]
      · simp [setTime, lookupTime, hk, hkb, ih]

theorem rateLimited_eq_false_iff (st : RateState) (uid : Int) (now : ℚ) :
    rateLimited st uid now = false ↔
      lookupTime st uid = none ∨
        ∃ t, lookupTime st uid = some t ∧ MIN_MESSAGE_INTERVAL ≤ now - t := by
  unfold rateLimited
  cases h : lookupTime st uid with
  | none => simp
  | some t =>
    simp only [decide_eq_false_iff_not, not_lt, Option.some.injEq]
    constructor
    · intro hle
      exact Or.inr ⟨t, rfl, hle⟩
    · rintro (hc | ⟨t', ht', hle⟩)
      · exact absurd hc (by simp)
      · cases ht'; exact hle

/-- The final state of the post-gate part of the handler: the timestamp
write of line 105 happens exactly when the query is non-empty. -/
theorem askValidated_state_eq (st : RateState) (uid : Int) (userName userQuery : String)
    (now : ℚ) (agent : AgentOutcome) (channel : ℕ → SendOutcome) :
    (askValidated st uid userName userQuery now agent channel).state =
      if userQuery = "" then st else setTime st uid now := by
  unfold askValidated
  by_cases hq : userQuery = ""
  · cases hch : channel 0 <;> simp [hq, hch]
  · simp only [hq, if_false, if_neg hq]
    cases agent with
    | ok answer =>
      by_cases hlen : answer.length > 4096
      · simp only [hlen, if_pos hlen]
        cases hsc : (sendChunks channel 0 ((sliceChunks answer.data 4096).map String.mk)).2.2 <;>
          simp [hsc]
      · simp only [hlen, if_neg hlen]
        cases hch : channel 0 <;> simp [hch]
    | retryAfter n => simp
    | err desc => simp

/-- The final `last_message_time` state of an `ask` invocation: the
timestamp write of line 105 happens exactly when the shutdown gate, the
rate check and the non-empty-query validation all pass. -/
theorem ask_state_eq (st : RateState) (sd : Bool) (uid : Int) (fn : Option String)
    (args : List String) (now : ℚ) (agent : AgentOutcome) (channel : ℕ → SendOutcome) :
    (ask st sd uid fn args now agent channel).state =
      if sd = false ∧ rateLimited st uid now = false ∧ String.intercalate " " args ≠ ""
      then setTime st uid now else st := by
  cases sd with
  | true => simp [ask]
  | false =>
    by_cases hrl : rateLimited st uid now
    · cases hch : channel 0 <;> simp [ask, hrl, hch]
    · simp only [Bool.not_eq_true] at hrl
      by_cases hq : String.intercalate " " args = "" <;>
        simp [ask, hrl, hq, askValidated_state_eq]

/-! ## Helper lemmas: chunk slicing -/

theorem length_mk (l : List Char) : (String.mk l).length = l.length := rfl

theorem sliceChunks_nil (size : ℕ) (hsize : 0 < size) : sliceChunks [] size = [] := by
  have h0 : (size - 1) / size = 0 := Nat.div_eq_of_lt (by omega)
  simp [sliceChunks, h0]

theorem sliceChunks_cons (l : List Char) (size : ℕ) (hsize : 0 < size) (hl : l ≠ []) :
    sliceChunks l size = l.take size :: sliceChunks (l.drop size) size := by
  have hlen : 0 < l.length := List.length_pos.mpr hl
  by_cases hle : l.length ≤ size
  · have hdrop : l.drop size = [] := List.drop_eq_nil_of_le hle
    have hceil : (l.length + (size - 1)) / size = 1 := by
      apply Nat.div_eq_of_lt_le <;> omega
    rw [hdrop, sliceChunks_nil size hsize]
    simp only [sliceChunks, hceil]
    simp [List.range_succ]
  · push_neg at hle
    have hceil : (l.length + (size - 1)) / size
        = ((l.length - size) + (size - 1)) / size + 1 := by
      have heq : l.length + (size - 1) = ((l.length - size) + (size - 1)) + size := by omega
      rw [heq, Nat.add_div_right _ hsize]
    simp only [sliceChunks, List.length_drop, hceil, List.range_succ_eq_map,
      List.map_cons, List.map_map]
    have hfun : ((fun k => List.take size (List.drop (size * k) l)) ∘ Nat.succ)
        = fun k => List.take size (List.drop (size * k) (List.drop size l)) := by
      funext k
      simp only [Function.comp_apply, List.drop_drop]
      congr 2
      rw [Nat.mul_succ]
      omega
    rw [hfun]
    simp

theorem sliceChunks_flatten_aux (size : ℕ) (hsize : 0 < size) :
    ∀ (n : ℕ) (l : List Char), l.length ≤ n → (sliceChunks l size).flatten = l := by
  intro n
  induction n with
  | zero =>
    intro l hl
    have hnil : l = [] := List.eq_nil_of_length_eq_zero (Nat.le_zero.mp hl)
    subst hnil
    simp [sliceChunks_nil size hsize]
  | succ n ih =>
    intro l hl
    by_cases hnil : l = []
    · subst hnil; simp [sliceChunks_nil size hsize]
    · have hrec : (sliceChunks (l.drop size) size).flatten = l.drop size := by
        apply ih
        have hpos : 0 < l.length := List.length_pos.mpr hnil
        simp only [List.length_drop]
        omega
      rw [sliceChunks_cons l size hsize hnil, List.flatten_cons, hrec, List.take_append_drop]

theorem sliceChunks_flatten (l : List Char) (size : ℕ) (hsize : 0 < size) :
    (sliceChunks l size).flatten = l :=
  sliceChunks_flatten_aux size hsize l.length l le_rfl

theorem sliceChunks_length (l : List Char) (size : ℕ) :
    (sliceChunks l size).length = (l.length + (size - 1)) / size := by
  simp [sliceChunks]

theorem sliceChunks_getElem (l : List Char) (size i : ℕ)
    (hi : i < (sliceChunks l size).length) :
    (sliceChunks l size)[i] = (l.drop (size * i)).take size := by
  simp [sliceChunks]

theorem length_pos_of_ne_empty (s : String) (h : s ≠ "") : 0 < s.length := by
  obtain ⟨data⟩ := s
  cases data with
  | nil => exact absurd rfl h
  | cons c cs => simp [String.length]

theorem dispatchTexts_data_flatten (answer : String) :
    ((dispatchTexts answer).map String.data).flatten = answer.data := by
  by_cases hlen : answer.length > 4096
  · simp only [dispatchTexts]
    rw [if_pos hlen]
    simp only [List.map_map]
    have hid : String.data ∘ String.mk = id := funext fun l => rfl
    rw [hid, List.map_id]
    exact sliceChunks_flatten answer.data 4096 (by norm_num)
  · simp only [dispatchTexts]
    rw [if_neg hlen]
    simp

theorem dispatchTexts_length (answer : String) (h : answer ≠ "") :
    (dispatchTexts answer).length = (answer.length + 4095) / 4096 := by
  by_cases hlen : answer.length > 4096
  · simp only [dispatchTexts]
    rw [if_pos hlen]
    rw [List.length_map, sliceChunks_length]
    rfl
  · have hpos : 0 < answer.length := length_pos_of_ne_empty answer h
    have hone : (answer.length + 4095) / 4096 = 1 := by
      apply Nat.div_eq_of_lt_le <;> omega
    simp only [dispatchTexts]
    rw [if_neg hlen, hone]
    rfl

theorem dispatchTexts_get_length (answer : String) (i : ℕ)
    (hi : i < (dispatchTexts answer).length) :
    ((dispatchTexts answer).get ⟨i, hi⟩).length = min 4096 (answer.length - 4096 * i) := by
  by_cases hlen : answer.length > 4096
  · have hd : dispatchTexts answer = (sliceChunks answer.data 4096).map String.mk := by
      simp only [dispatchTexts]; rw [if_pos hlen]
    have hi' : i < (sliceChunks answer.data 4096).length := by
      have h2 := hi
      rw [hd, List.length_map] at h2
      exact h2
    rw [List.get_eq_getElem]
    simp only [hd, List.getElem_map]
    rw [length_mk, sliceChunks_getElem _ _ _ hi']
    rw [List.length_take, List.length_drop]
    rfl
  · have h1 : (dispatchTexts answer).length = 1 := by
      simp only [dispatchTexts]; rw [if_neg hlen]; rfl
    have hi0 : i = 0 := by omega
    subst hi0
    have hd : dispatchTexts answer = [answer] := by
      simp only [dispatchTexts]; rw [if_neg hlen]
    have hget : (dispatchTexts answer).get ⟨0, hi⟩ = answer := by
      rw [List.get_eq_getElem]
      simp [hd]
    rw [hget]
    push_neg at hlen
    omega

theorem dispatchTexts_all_le (answer c : String) (hc : c ∈ dispatchTexts answer) :
    c.length ≤ 4096 := by
  by_cases hlen : answer.length > 4096
  · have hd : dispatchTexts answer = (sliceChunks answer.data 4096).map String.mk := by
      simp only [dispatchTexts]; rw [if_pos hlen]
    rw [hd] at hc
    simp only [List.mem_map] at hc
    obtain ⟨chunk, hchunk, rfl⟩ := hc
    simp only [sliceChunks, List.mem_map, List.mem_range] at hchunk
    obtain ⟨k, _, rfl⟩ := hchunk
    rw [length_mk]
    exact List.length_take_le _ _
  · have hd : dispatchTexts answer = [answer] := by
      simp only [dispatchTexts]; rw [if_neg hlen]
    rw [hd, List.mem_singleton] at hc
    subst hc
    omega

/-! ## Helper lemmas: trace projections -/

theorem attemptsOf_nil : attemptsOf [] = [] := rfl

theorem attemptsOf_append (a b : List Event) :
    attemptsOf (a ++ b) = attemptsOf a ++ attemptsOf b := by
  simp [attemptsOf]

theorem attemptsOf_attempt (t : String) (l : List Event) :
    attemptsOf (Event.attempt t :: l) = t :: attemptsOf l := rfl

theorem attemptsOf_wrote (uid : Int) (q : ℚ) (l : List Event) :
    attemptsOf (Event.wrote uid q :: l) = attemptsOf l := rfl

theorem attemptsOf_agentCall (q : String) (l : List Event) :
    attemptsOf (Event.agentCall q :: l) = attemptsOf l := rfl

theorem attemptsOf_slept (d : ℚ) (l : List Event) :
    attemptsOf (Event.slept d :: l) = attemptsOf l := rfl

theorem attemptsOf_warnLog (t : String) (l : List Event) :
    attemptsOf (Event.warnLog t :: l) = attemptsOf l := rfl

theorem attemptsOf_errorLog (t : String) (l : List Event) :
    attemptsOf (Event.errorLog t :: l) = attemptsOf l := rfl

/-! ## Helper lemmas: the chunk-sending loop -/

theorem sendChunks_allok (channel : ℕ → SendOutcome) (hch : ∀ j, channel j = .ok) :
    ∀ (chunks : List String) (k : ℕ),
      attemptsOf (sendChunks channel k chunks).1 = chunks ∧
      (sendChunks channel k chunks).2.2 = .done := by
  intro chunks
  induction chunks with
  | nil => intro k; simp [sendChunks, attemptsOf]
  | cons c rest ih =>
    intro k
    by_cases hrest : rest = []
    · subst hrest
      simp [sendChunks, hch k, attemptsOf]
    · simp only [sendChunks, hch k]
      rw [if_neg hrest]
      obtain ⟨ha, he⟩ := ih (k + 1)
      exact ⟨by rw [attemptsOf_attempt, attemptsOf_slept, ha], he⟩

theorem sendChunks_overload (channel : ℕ → SendOutcome) (n : ℕ) :
    ∀ (chunks : List String) (k i : ℕ),
      (∀ j, j < i → channel (k + j) = .ok) →
      channel (k + i) = .retryAfter n →
      i < chunks.length →
      attemptsOf (sendChunks channel k chunks).1 = chunks.take (i + 1) ∧
      (sendChunks channel k chunks).2.2 = .broke ∧
      Event.warnLog (chunkRetryWarn (k + i) n) ∈ (sendChunks channel k chunks).1 := by
  intro chunks
  induction chunks with
  | nil =>
    intro k i _ _ hlen
    simp at hlen
  | cons c rest ih =>
    intro k i hok hov hlen
    cases i with
    | zero =>
      have h0 : channel k = .retryAfter n := by simpa using hov
      simp [sendChunks, h0, attemptsOf]
    | succ j =>
      have hk : channel k = .ok := by
        have := hok 0 (Nat.succ_pos j)
        simpa using this
      have hrest : rest ≠ [] := by
        intro h
        subst h
        simp at hlen
      simp only [sendChunks, hk]
      rw [if_neg hrest]
      have hok' : ∀ m, m < j → channel (k + 1 + m) = .ok := by
        intro m hm
        have heq : k + 1 + m = k + (m + 1) := by omega
        rw [heq]
        exact hok (m + 1) (by omega)
      have hov' : channel (k + 1 + j) = .retryAfter n := by
        have heq : k + 1 + j = k + (j + 1) := by omega
        rw [heq]
        exact hov
      have hlen' : j < rest.length := by
        simp at hlen
        omega
      obtain ⟨ha, he, hm⟩ := ih (k + 1) j hok' hov' hlen'
      refine ⟨?_, he, ?_⟩
      · rw [attemptsOf_attempt, attemptsOf_slept, ha, List.take_succ_cons]
      · have heq : k + 1 + j = k + (j + 1) := by omega
        rw [← heq]
        exact List.mem_cons_of_mem _ (List.mem_cons_of_mem _ hm)

/-- After the shutdown gate and a passing rate check, `ask` is the
post-gate handler on the joined query. -/
theorem ask_eq_askValidated (st : RateState) (uid : Int) (fn : Option String)
    (args : List String) (now : ℚ) (agent : AgentOutcome) (channel : ℕ → SendOutcome)
    (hrl : rateLimited st uid now = false) :
    ask st false uid fn args now agent channel
      = askValidated st uid (fn.getD "Unknown") (String.intercalate " " args)
          now agent channel := by
  simp [ask, hrl]

/-! ## Helper lemmas: the error-reply tail and the dispatch paths -/

theorem genericErrorTail_attempts (userName desc : String) (channel : ℕ → SendOutcome)
    (k : ℕ) :
    attemptsOf (genericErrorTail userName desc channel k).1 = [errorMsg desc] := by
  unfold genericErrorTail
  cases channel k <;> rfl

theorem genericErrorTail_crash_of_not_rejected (userName desc : String)
    (channel : ℕ → SendOutcome) (k : ℕ) (h : ∀ r, channel k ≠ SendOutcome.rejected r) :
    (genericErrorTail userName desc channel k).2 = none := by
  unfold genericErrorTail
  cases hc : channel k with
  | ok => rfl
  | retryAfter n => rfl
  | rejected r => exact absurd hc (h r)

theorem genericErrorTail_errorLog (userName desc : String) (channel : ℕ → SendOutcome)
    (k : ℕ) :
    Event.errorLog (processErrorLog userName desc) ∈ (genericErrorTail userName desc channel k).1 := by
  unfold genericErrorTail
  cases channel k <;> exact List.mem_cons_self _ _

/-- Long-answer dispatch when the chunk loop ends without raising: the
trace is the timestamp write, the agent call, the pre-send pacing delay
and the chunk-loop events; the handler returns normally. -/
theorem askValidated_ok_long_events (st : RateState) (uid : Int)
    (userName userQuery answer : String) (now : ℚ) (channel : ℕ → SendOutcome)
    (hq : userQuery ≠ "") (hlen : answer.length > 4096)
    (hexit : (sendChunks channel 0 ((sliceChunks answer.data 4096).map String.mk)).2.2 = LoopExit.done
      ∨ (sendChunks channel 0 ((sliceChunks answer.data 4096).map String.mk)).2.2 = LoopExit.broke) :
    (askValidated st uid userName userQuery now (.ok answer) channel).events
      = [Event.wrote uid now, Event.agentCall userQuery, Event.slept 1]
          ++ (sendChunks channel 0 ((sliceChunks answer.data 4096).map String.mk)).1
    ∧ (askValidated st uid userName userQuery now (.ok answer) channel).crash = none := by
  simp only [askValidated, if_neg hq]
  rcases hexit with h | h <;> · rw [if_pos hlen]; rw [h]; exact ⟨rfl, rfl⟩

/-- Short-answer dispatch with a successful send. -/
theorem askValidated_ok_short_sent (st : RateState) (uid : Int)
    (userName userQuery answer : String) (now : ℚ) (channel : ℕ → SendOutcome)
    (hq : userQuery ≠ "") (hlen : ¬ answer.length > 4096) (hch : channel 0 = SendOutcome.ok) :
    (askValidated st uid userName userQuery now (.ok answer) channel).events
      = [Event.wrote uid now, Event.agentCall userQuery, Event.slept 1, Event.attempt answer]
    ∧ (askValidated st uid userName userQuery now (.ok answer) channel).crash = none := by
  simp only [askValidated, if_neg hq]
  rw [if_neg hlen, hch]
  exact ⟨rfl, rfl⟩

/-- Short-answer dispatch hitting `RetryAfter`: one fallback attempt,
whose own failure is swallowed; the handler returns normally. -/
theorem askValidated_ok_short_overload (st : RateState) (uid : Int)
    (userName userQuery answer : String) (now : ℚ) (n : ℕ) (channel : ℕ → SendOutcome)
    (hq : userQuery ≠ "") (hlen : ¬ answer.length > 4096)
    (hch : channel 0 = SendOutcome.retryAfter n) :
    attemptsOf (askValidated st uid userName userQuery now (.ok answer) channel).events
      = [answer, fallbackMsg n]
    ∧ (askValidated st uid userName userQuery now (.ok answer) channel).crash = none := by
  simp only [askValidated, if_neg hq]
  rw [if_neg hlen, hch]
  cases channel 1 <;>
    simp [attemptsOf_append, attemptsOf_attempt, attemptsOf_wrote, attemptsOf_agentCall,
      attemptsOf_slept, attemptsOf_warnLog, attemptsOf_nil]

/-- Short-answer dispatch rejected for a non-overload reason: the
generic error path runs, with its reply attempt at channel index 1. -/
theorem askValidated_ok_short_rejected (st : RateState) (uid : Int)
    (userName userQuery answer reason : String) (now : ℚ) (channel : ℕ → SendOutcome)
    (hq : userQuery ≠ "") (hlen : ¬ answer.length > 4096)
    (hch : channel 0 = SendOutcome.rejected reason) :
    (askValidated st uid userName userQuery now (.ok answer) channel).events
      = [Event.wrote uid now, Event.agentCall userQuery, Event.slept 1, Event.attempt answer]
          ++ (genericErrorTail userName reason channel 1).1
    ∧ (askValidated st uid userName userQuery now (.ok answer) channel).crash
        = (genericErrorTail userName reason channel 1).2 := by
  simp only [askValidated, if_neg hq]
  rw [if_neg hlen, hch]
  exact ⟨rfl, rfl⟩

/-- Agent failure other than `RetryAfter`: the generic error path runs
right after the agent call. -/
theorem askValidated_err_events (st : RateState) (uid : Int)
    (userName userQuery desc : String) (now : ℚ) (channel : ℕ → SendOutcome)
    (hq : userQuery ≠ "") :
    (askValidated st uid userName userQuery now (.err desc) channel).events
      = [Event.wrote uid now, Event.agentCall userQuery]
          ++ (genericErrorTail userName desc channel 0).1
    ∧ (askValidated st uid userName userQuery now (.err desc) channel).crash
        = (genericErrorTail userName desc channel 0).2 := by
  simp only [askValidated, if_neg hq]
  refine ⟨?_, ?_⟩ <;> first | rfl | trivial

theorem ne_empty_of_length_pos (s : String) (h : 0 < s.length) : s ≠ "" := by
  intro hcon
  subst hcon
  exact absurd h (by decide)

theorem agentCallsOf_append (a b : List Event) :
    agentCallsOf (a ++ b) = agentCallsOf a ++ agentCallsOf b := by
  simp [agentCallsOf]

theorem agentCallsOf_agentCall (q : String) (l : List Event) :
    agentCallsOf (Event.agentCall q :: l) = q :: agentCallsOf l := rfl

theorem agentCallsOf_attempt (t : String) (l : List Event) :
    agentCallsOf (Event.attempt t :: l) = agentCallsOf l := rfl

theorem agentCallsOf_wrote (uid : Int) (q : ℚ) (l : List Event) :
    agentCallsOf (Event.wrote uid q :: l) = agentCallsOf l := rfl

theorem agentCallsOf_slept (d : ℚ) (l : List Event) :
    agentCallsOf (Event.slept d :: l) = agentCallsOf l := rfl

theorem agentCallsOf_warnLog (t : String) (l : List Event) :
    agentCallsOf (Event.warnLog t :: l) = agentCallsOf l := rfl

theorem agentCallsOf_errorLog (t : String) (l : List Event) :
    agentCallsOf (Event.errorLog t :: l) = agentCallsOf l := rfl

theorem nonLogEvents_append (a b : List Event) :
    nonLogEvents (a ++ b) = nonLogEvents a ++ nonLogEvents b := by
  simp [nonLogEvents]

theorem nonLogEvents_attempt (t : String) (l : List Event) :
    nonLogEvents (Event.attempt t :: l) = Event.attempt t :: nonLogEvents l := rfl

theorem nonLogEvents_wrote (uid : Int) (q : ℚ) (l : List Event) :
    nonLogEvents (Event.wrote uid q :: l) = Event.wrote uid q :: nonLogEvents l := rfl

theorem nonLogEvents_agentCall (q : String) (l : List Event) :
    nonLogEvents (Event.agentCall q :: l) = Event.agentCall q :: nonLogEvents l := rfl

theorem nonLogEvents_slept (d : ℚ) (l : List Event) :
    nonLogEvents (Event.slept d :: l) = Event.slept d :: nonLogEvents l := rfl

theorem nonLogEvents_warnLog (t : String) (l : List Event) :
    nonLogEvents (Event.warnLog t :: l) = nonLogEvents l := rfl

theorem nonLogEvents_errorLog (t : String) (l : List Event) :
    nonLogEvents (Event.errorLog t :: l) = nonLogEvents l := rfl

/-- With an always-ok reply channel, a successful agent answer is sent
as exactly the dispatch chunks, in order. -/
theorem askValidated_allok_attempts (st : RateState) (uid : Int)
    (userName userQuery answer : String) (now : ℚ) (hq : userQuery ≠ "") :
    attemptsOf (askValidated st uid userName userQuery now (.ok answer)
        (fun _ => SendOutcome.ok)).events = dispatchTexts answer := by
  by_cases hlen : answer.length > 4096
  · obtain ⟨ha, he⟩ := sendChunks_allok (fun _ => SendOutcome.ok) (fun _ => rfl)
      ((sliceChunks answer.data 4096).map String.mk) 0
    obtain ⟨hev, -⟩ := askValidated_ok_long_events st uid userName userQuery answer now
      (fun _ => SendOutcome.ok) hq hlen (Or.inl he)
    rw [hev, attemptsOf_append]
    have hpre : attemptsOf [Event.wrote uid now, Event.agentCall userQuery, Event.slept 1]
        = [] := rfl
    rw [hpre, List.nil_append, ha]
    simp only [dispatchTexts]
    rw [if_pos hlen]
  · obtain ⟨hev, -⟩ := askValidated_ok_short_sent st uid userName userQuery answer now
      (fun _ => SendOutcome.ok) hq hlen rfl
    rw [hev]
    have h1 : attemptsOf [Event.wrote uid now, Event.agentCall userQuery, Event.slept 1,
        Event.attempt answer] = [answer] := rfl
    rw [h1]
    simp only [dispatchTexts]
    rw [if_neg hlen]

/-- The rate-limited (deny) branch: one fixed reply, no state change, no
agent call. -/
theorem ask_denied (st : RateState) (uid : Int) (fn : Option String) (args : List String)
    (now : ℚ) (agent : AgentOutcome) (channel : ℕ → SendOutcome)
    (hrl : rateLimited st uid now = true) :
    attemptsOf (ask st false uid fn args now agent channel).events = [rateLimitMsg] ∧
    (ask st false uid fn args now agent channel).state = st ∧
    agentCallsOf (ask st false uid fn args now agent channel).events = [] := by
  cases hch : channel 0 <;> simp [ask, hrl, hch, attemptsOf, agentCallsOf]

/-- The empty-query branch: one fixed reply, no state change, no agent
call. -/
theorem askValidated_empty (st : RateState) (uid : Int) (userName : String) (now : ℚ)
    (agent : AgentOutcome) (channel : ℕ → SendOutcome) :
    attemptsOf (askValidated st uid userName "" now agent channel).events
      = [emptyQueryMsg] ∧
    (askValidated st uid userName "" now agent channel).state = st ∧
    agentCallsOf (askValidated st uid userName "" now agent channel).events = [] := by
  cases hch : channel 0 <;> simp [askValidated, hch, attemptsOf, agentCallsOf]

/-- On a validated (non-empty) query, the trace of the post-gate handler
starts with the timestamp write followed by the agent call, whatever the
agent and the channel then do. -/
theorem askValidated_events_take2 (st : RateState) (uid : Int)
    (userName userQuery : String) (now : ℚ) (agent : AgentOutcome)
    (channel : ℕ → SendOutcome) (hq : userQuery ≠ "") :
    (askValidated st uid userName userQuery now agent channel).events.take 2
      = [Event.wrote uid now, Event.agentCall userQuery] := by
  cases agent with
  | ok answer =>
    simp only [askValidated, if_neg hq]
    by_cases hlen : answer.length > 4096
    · rw [if_pos hlen]
      cases (sendChunks channel 0 ((sliceChunks answer.data 4096).map String.mk)).2.2 <;> rfl
    · rw [if_neg hlen]
      cases hch : channel 0 <;> rfl
  | retryAfter n =>
    simp only [askValidated, if_neg hq]
    rfl
  | err desc =>
    simp only [askValidated, if_neg hq]
    rfl

/-- The display name appears only in log lines: all other observables of
the post-gate handler are independent of it. -/
theorem askValidated_name_indep (st : RateState) (uid : Int) (un1 un2 userQuery : String)
    (now : ℚ) (agent : AgentOutcome) (channel : ℕ → SendOutcome) :
    (askValidated st uid un1 userQuery now agent channel).state
        = (askValidated st uid un2 userQuery now agent channel).state ∧
    attemptsOf (askValidated st uid un1 userQuery now agent channel).events
        = attemptsOf (askValidated st uid un2 userQuery now agent channel).events ∧
    agentCallsOf (askValidated st uid un1 userQuery now agent channel).events
        = agentCallsOf (askValidated st uid un2 userQuery now agent channel).events ∧
    nonLogEvents (askValidated st uid un1 userQuery now agent channel).events
        = nonLogEvents (askValidated st uid un2 userQuery now agent channel).events ∧
    (askValidated st uid un1 userQuery now agent channel).crash
        = (askValidated st uid un2 userQuery now agent channel).crash := by
  by_cases hq : userQuery = ""
  · have he : askValidated st uid un1 userQuery now agent channel
        = askValidated st uid un2 userQuery now agent channel := by
      subst hq
      simp [askValidated]
    rw [he]
    refine ⟨?_, ?_, ?_, ?_, ?_⟩ <;> first | rfl | trivial
  · cases agent with
    | retryAfter n =>
      simp only [askValidated, if_neg hq]
      cases hch : channel 0 <;> refine ⟨?_, ?_, ?_, ?_, ?_⟩ <;> first | rfl | trivial
    | err desc =>
      simp only [askValidated, if_neg hq]
      cases hch : channel 0 <;>
        · simp only [genericErrorTail, hch]
          refine ⟨?_, ?_, ?_, ?_, ?_⟩ <;> first | rfl | trivial
    | ok answer =>
      simp only [askValidated, if_neg hq]
      by_cases hlen : answer.length > 4096
      · simp only [if_pos hlen]
        cases hexit : (sendChunks channel 0 ((sliceChunks answer.data 4096).map String.mk)).2.2 with
        | done => refine ⟨?_, ?_, ?_, ?_, ?_⟩ <;> first | rfl | trivial
        | broke => refine ⟨?_, ?_, ?_, ?_, ?_⟩ <;> first | rfl | trivial
        | raised reason =>
          cases hch2 : channel (sendChunks channel 0
              ((sliceChunks answer.data 4096).map String.mk)).2.1 <;>
            · simp only [genericErrorTail, hch2]
              refine ⟨?_, ?_, ?_, ?_, ?_⟩ <;>
                first
                  | rfl
                  | trivial
                  | simp [attemptsOf_append, agentCallsOf_append, nonLogEvents_append,
                      attemptsOf, agentCallsOf, nonLogEvents]
      · simp only [if_neg hlen]
        cases hch : channel 0 with
        | ok => refine ⟨?_, ?_, ?_, ?_, ?_⟩ <;> first | rfl | trivial
        | retryAfter n =>
          cases hch1 : channel 1 <;> refine ⟨?_, ?_, ?_, ?_, ?_⟩ <;> first | rfl | trivial
        | rejected reason =>
          cases hch1 : channel 1 <;>
            · simp only [genericErrorTail, hch1]
              refine ⟨?_, ?_, ?_, ?_, ?_⟩ <;> first | rfl | trivial

/-! ## The claims -/

/-- C1: for every answer string `s`, the dispatcher splits `s` into
consecutive chunks of at most 4096 characters preserving character
order, the concatenation of the chunks equals `s` exactly, the number
of chunks is `⌈len(s)/4096⌉` (at least 1 for non-empty `s`), each chunk
`i` has length `min 4096 (len(s) - 4096·i)` — so a 9000-character
answer yields 3 chunks of lengths 4096, 4096 and 808 — and the handler
sends exactly those chunks, in order. -/
theorem C1_chunk_round_trip (s : String) (h : s ≠ "") :
    (∀ c ∈ dispatchTexts s, c.length ≤ 4096) ∧
    ((dispatchTexts s).map String.data).flatten = s.data ∧
    (dispatchTexts s).length = (s.length + 4095) / 4096 ∧
    (∀ i, (hi : i < (dispatchTexts s).length) →
      ((dispatchTexts s).get ⟨i, hi⟩).length = min 4096 (s.length - 4096 * i)) ∧
    attemptsOf (ask [] false 42 none ["q"] 0 (AgentOutcome.ok s)
        (fun _ => SendOutcome.ok)).events = dispatchTexts s := by
  refine ⟨fun c hc => dispatchTexts_all_le s c hc, dispatchTexts_data_flatten s,
    dispatchTexts_length s h, fun i hi => dispatchTexts_get_length s i hi, ?_⟩
  rw [ask_eq_askValidated [] 42 none ["q"] 0 (AgentOutcome.ok s) (fun _ => SendOutcome.ok) rfl]
  exact askValidated_allok_attempts [] 42 "Unknown" (String.intercalate " " ["q"]) s 0
    (by decide)

/-- Witness for C1, at the 9000-character answer of Scenario 4: three
chunks whose lengths are 4096, 4096 and 808, concatenating back to the
answer. -/
theorem C1_chunk_round_trip_witness :
    (String.mk (List.replicate 9000 'a') ≠ "") ∧
    (dispatchTexts (String.mk (List.replicate 9000 'a'))).length = 3 ∧
    (∀ i, (hi : i < (dispatchTexts (String.mk (List.replicate 9000 'a'))).length) →
      ((dispatchTexts (String.mk (List.replicate 9000 'a'))).get ⟨i, hi⟩).length
        = min 4096 (9000 - 4096 * i)) ∧
    ((dispatchTexts (String.mk (List.replicate 9000 'a'))).map String.data).flatten
      = (String.mk (List.replicate 9000 'a')).data := by
  have hlen9 : (String.mk (List.replicate 9000 'a')).length = 9000 := by
    rw [length_mk]
    exact List.length_replicate 9000 'a'
  have hne : String.mk (List.replicate 9000 'a') ≠ "" :=
    ne_empty_of_length_pos _ (by rw [hlen9]; norm_num)
  obtain ⟨h1, h2, h3, h4, h5⟩ := C1_chunk_round_trip (String.mk (List.replicate 9000 'a')) hne
  refine ⟨hne, ?_, ?_, h2⟩
  · rw [h3, hlen9]
  · intro i hi
    rw [h4 i hi, hlen9]

/-- C2: the rate check admits iff the user has no recorded timestamp or
`now - last ≥ MIN_MESSAGE_INTERVAL` (2.0 s), and denies otherwise;
after a timestamp is recorded at `T`, a check strictly before
`T + 2.0` denies and a check at `T + 2.0 + ε` (ε > 0) admits. -/
theorem C2_rate_gate (st : RateState) (uid : Int) (now : ℚ) :
    (rateLimited st uid now = false ↔
      lookupTime st uid = none ∨
        ∃ t, lookupTime st uid = some t ∧ MIN_MESSAGE_INTERVAL ≤ now - t) ∧
    (∀ T t2 : ℚ, t2 < T + MIN_MESSAGE_INTERVAL →
      rateLimited (setTime st uid T) uid t2 = true) ∧
    (∀ T e : ℚ, 0 < e →
      rateLimited (setTime st uid T) uid (T + MIN_MESSAGE_INTERVAL + e) = false) := by
  refine ⟨rateLimited_eq_false_iff st uid now, ?_, ?_⟩
  · intro T t2 ht
    unfold rateLimited
    rw [lookupTime_setTime_self]
    have hlt : t2 - T < MIN_MESSAGE_INTERVAL := by linarith
    simp [hlt]
  · intro T e he
    unfold rateLimited
    rw [lookupTime_setTime_self]
    have hge : ¬ (T + MIN_MESSAGE_INTERVAL + e - T < MIN_MESSAGE_INTERVAL) := by
      push_neg
      linarith
    simp [hge]

/-- Witness for C2: a recheck 1 s after an admit at time 0 denies, and a
recheck at `MIN_MESSAGE_INTERVAL + 1` admits. -/
theorem C2_rate_gate_witness :
    ((1 : ℚ) < 0 + MIN_MESSAGE_INTERVAL ∧ rateLimited (setTime [] 7 0) 7 1 = true) ∧
    ((0 : ℚ) < 1 ∧ rateLimited (setTime [] 7 0) 7 (0 + MIN_MESSAGE_INTERVAL + 1) = false) := by
  constructor
  · exact ⟨by norm_num [MIN_MESSAGE_INTERVAL],
      (C2_rate_gate [] 7 0).2.1 0 1 (by norm_num [MIN_MESSAGE_INTERVAL])⟩
  · exact ⟨by norm_num, (C2_rate_gate [] 7 0).2.2 0 1 (by norm_num)⟩

/-- Counterexample to C3: a currently rate-limited sender (entry at
time 0, command at time 1) with an empty argument list receives the
rate-limit reply, not `"you forgot to ask ..."` — the handler performs
the rate check before the empty-query validation. -/
theorem C3_counterexample :
    attemptsOf (ask [(5, 0)] false 5 none [] 1 (AgentOutcome.ok "x")
        (fun _ => SendOutcome.ok)).events = [rateLimitMsg] ∧
    rateLimitMsg ≠ emptyQueryMsg := by
  have hrl : rateLimited [(5, 0)] 5 1 = true := by
    norm_num [rateLimited, lookupTime, MIN_MESSAGE_INTERVAL]
  exact ⟨(ask_denied [(5, 0)] 5 none [] 1 (AgentOutcome.ok "x")
    (fun _ => SendOutcome.ok) hrl).1, by decide⟩

/-- C3 (amended): an inbound command whose argument tokens join to the
empty string never reaches the agent and never mutates the RateGate
state; it is answered with `"you forgot to ask ..."` when the sender is
not currently rate-limited, but with the rate-limit reply when the
sender is (the rate check precedes validation in the handler). -/
theorem C3_empty_query (st : RateState) (uid : Int) (fn : Option String)
    (args : List String) (now : ℚ) (agent : AgentOutcome) (channel : ℕ → SendOutcome)
    (hargs : String.intercalate " " args = "") :
    attemptsOf (ask st false uid fn args now agent channel).events
      = [if rateLimited st uid now then rateLimitMsg else emptyQueryMsg] ∧
    (ask st false uid fn args now agent channel).state = st ∧
    agentCallsOf (ask st false uid fn args now agent channel).events = [] := by
  by_cases hrl : rateLimited st uid now
  · obtain ⟨h1, h2, h3⟩ := ask_denied st uid fn args now agent channel hrl
    exact ⟨by rw [h1, if_pos hrl], h2, h3⟩
  · have hrl' : rateLimited st uid now = false := by simpa using hrl
    rw [ask_eq_askValidated st uid fn args now agent channel hrl', hargs]
    obtain ⟨h1, h2, h3⟩ := askValidated_empty st uid (fn.getD "Unknown") now agent channel
    exact ⟨by rw [h1, if_neg hrl], h2, h3⟩

/-- Witness for C3 (amended), at an empty argument list from a fresh
user. -/
theorem C3_empty_query_witness :
    (String.intercalate " " ([] : List String) = "") ∧
    (attemptsOf (ask [] false 8 none [] 0 (AgentOutcome.ok "x")
        (fun _ => SendOutcome.ok)).events
      = [if rateLimited [] 8 0 then rateLimitMsg else emptyQueryMsg] ∧
    (ask [] false 8 none [] 0 (AgentOutcome.ok "x") (fun _ => SendOutcome.ok)).state = [] ∧
    agentCallsOf (ask [] false 8 none [] 0 (AgentOutcome.ok "x")
        (fun _ => SendOutcome.ok)).events = []) :=
  ⟨rfl, C3_empty_query [] 8 none [] 0 (AgentOutcome.ok "x") (fun _ => SendOutcome.ok) rfl⟩

/-- C4: on every admitted, validated request the handler stores the
caller-supplied current time under the sender's id — creating the entry
on a first admit, overwriting it on later ones — and this write is the
first event of the trace, before the agent invocation. -/
theorem C4_record_before_agent (st : RateState) (uid : Int) (fn : Option String)
    (args : List String) (now : ℚ) (agent : AgentOutcome) (channel : ℕ → SendOutcome)
    (hrl : rateLimited st uid now = false)
    (hq : String.intercalate " " args ≠ "") :
    (ask st false uid fn args now agent channel).state = setTime st uid now ∧
    lookupTime (ask st false uid fn args now agent channel).state uid = some now ∧
    (ask st false uid fn args now agent channel).events.take 2
      = [Event.wrote uid now, Event.agentCall (String.intercalate " " args)] := by
  have hstate := ask_state_eq st false uid fn args now agent channel
  rw [if_pos ⟨rfl, hrl, hq⟩] at hstate
  refine ⟨hstate, ?_, ?_⟩
  · rw [hstate]
    exact lookupTime_setTime_self st uid now
  · rw [ask_eq_askValidated st uid fn args now agent channel hrl]
    exact askValidated_events_take2 st uid (fn.getD "Unknown") _ now agent channel hq

/-- Witness for C4: a first-ever admitted request from user 42. -/
theorem C4_record_before_agent_witness :
    (rateLimited [] 42 0 = false ∧ String.intercalate " " ["hi"] ≠ "") ∧
    ((ask [] false 42 none ["hi"] 0 (AgentOutcome.ok "y") (fun _ => SendOutcome.ok)).state
        = setTime [] 42 0 ∧
      lookupTime (ask [] false 42 none ["hi"] 0 (AgentOutcome.ok "y")
          (fun _ => SendOutcome.ok)).state 42 = some 0 ∧
      (ask [] false 42 none ["hi"] 0 (AgentOutcome.ok "y")
          (fun _ => SendOutcome.ok)).events.take 2
        = [Event.wrote 42 0, Event.agentCall (String.intercalate " " ["hi"])]) :=
  ⟨⟨rfl, by decide⟩,
    C4_record_before_agent [] 42 none ["hi"] 0 (AgentOutcome.ok "y")
      (fun _ => SendOutcome.ok) rfl (by decide)⟩

/-- C5: a Deny never mutates the RateGate state, and handling a command
from user A leaves every other user's recorded timestamp unchanged. -/
theorem C5_frame (st : RateState) (sd : Bool) (uid : Int) (fn : Option String)
    (args : List String) (now : ℚ) (agent : AgentOutcome) (channel : ℕ → SendOutcome) :
    (rateLimited st uid now = true →
      (ask st sd uid fn args now agent channel).state = st) ∧
    (∀ b : Int, b ≠ uid →
      lookupTime (ask st sd uid fn args now agent channel).state b = lookupTime st b) := by
  have hstate := ask_state_eq st sd uid fn args now agent channel
  constructor
  · intro hrl
    rw [hstate, if_neg]
    rintro ⟨-, h2, -⟩
    rw [hrl] at h2
    cases h2
  · intro b hb
    rw [hstate]
    by_cases hcond : sd = false ∧ rateLimited st uid now = false
        ∧ String.intercalate " " args ≠ ""
    · rw [if_pos hcond]
      exact lookupTime_setTime_ne st uid b now hb
    · rw [if_neg hcond]

/-- Witness for C5: a denied request from user 3 leaves the state
unchanged, and an admitted request from user 3 leaves user 4's (absent)
entry unchanged. -/
theorem C5_frame_witness :
    (rateLimited [(3, 0)] 3 1 = true ∧
      (ask [(3, 0)] false 3 none ["q"] 1 (AgentOutcome.ok "y")
          (fun _ => SendOutcome.ok)).state = [(3, 0)]) ∧
    ((4 : Int) ≠ 3 ∧
      lookupTime (ask [(3, 0)] false 3 none ["q"] 5 (AgentOutcome.ok "y")
          (fun _ => SendOutcome.ok)).state 4 = lookupTime [(3, 0)] 4) := by
  constructor
  · have hrl : rateLimited [(3, 0)] 3 1 = true := by
      norm_num [rateLimited, lookupTime, MIN_MESSAGE_INTERVAL]
    exact ⟨hrl, (C5_frame [(3, 0)] false 3 none ["q"] 1 (AgentOutcome.ok "y")
      (fun _ => SendOutcome.ok)).1 hrl⟩
  · exact ⟨by decide, (C5_frame [(3, 0)] false 3 none ["q"] 5 (AgentOutcome.ok "y")
      (fun _ => SendOutcome.ok)).2 4 (by decide)⟩

/-- One handled command never lowers the sender's recorded timestamp:
an overwrite happens only on an admitted request, whose time is at
least `MIN_MESSAGE_INTERVAL` past the stored one. -/
theorem runCmds_lookup_mono (uid : Int) :
    ∀ (cmds : List Cmd) (st : RateState) (t : ℚ),
      lookupTime st uid = some t →
      ∃ t2, lookupTime (runCmds st cmds) uid = some t2 ∧ t ≤ t2 := by
  intro cmds
  induction cmds with
  | nil =>
    intro st t h
    exact ⟨t, h, le_rfl⟩
  | cons c rest ih =>
    intro st t h
    have hstep : ∃ t1,
        lookupTime (ask st c.shuttingDown c.uid c.firstName c.args c.now c.agent
          c.channel).state uid = some t1 ∧ t ≤ t1 := by
      have hstate := ask_state_eq st c.shuttingDown c.uid c.firstName c.args c.now
        c.agent c.channel
      by_cases hcond : c.shuttingDown = false ∧ rateLimited st c.uid c.now = false
          ∧ String.intercalate " " c.args ≠ ""
      · rw [hstate, if_pos hcond]
        by_cases hbu : c.uid = uid
        · rw [hbu]
          refine ⟨c.now, lookupTime_setTime_self st uid c.now, ?_⟩
          obtain ⟨-, hrl, -⟩ := hcond
          rw [hbu] at hrl
          rcases (rateLimited_eq_false_iff st uid c.now).mp hrl with hnone | ⟨t3, ht3, hge⟩
          · rw [h] at hnone
            cases hnone
          · rw [h] at ht3
            have heq : t = t3 := Option.some.inj ht3
            subst heq
            have hMIN : (0 : ℚ) < MIN_MESSAGE_INTERVAL := by
              norm_num [MIN_MESSAGE_INTERVAL]
            linarith
        · rw [lookupTime_setTime_ne st c.uid uid c.now (fun hh => hbu hh.symm)]
          exact ⟨t, h, le_rfl⟩
      · rw [hstate, if_neg hcond]
        exact ⟨t, h, le_rfl⟩
    obtain ⟨t1, h1, hle1⟩ := hstep
    obtain ⟨t2, h2, hle2⟩ := ih _ t1 h1
    exact ⟨t2, h2, le_trans hle1 hle2⟩

/-- C6: across any sequence of handled commands with non-decreasing
caller-supplied times, a user's recorded timestamp is monotonically
non-decreasing: it is never deleted and never overwritten with a
smaller value. -/
theorem C6_timestamp_monotone (cmds : List Cmd) (st : RateState) (uid : Int) (t : ℚ)
    (hmono : List.Chain' (fun a b => a.now ≤ b.now) cmds)
    (h : lookupTime st uid = some t) :
    ∃ t2, lookupTime (runCmds st cmds) uid = some t2 ∧ t ≤ t2 :=
  runCmds_lookup_mono uid cmds st t h

/-- Witness for C6: user 3's entry moves from time 0 to time 5 across
one admitted command. -/
theorem C6_timestamp_monotone_witness :
    List.Chain' (fun a b => a.now ≤ b.now)
      [(⟨false, 3, none, ["x"], 5, AgentOutcome.ok "y", fun _ => SendOutcome.ok⟩ : Cmd)] ∧
    lookupTime [(3, 0)] 3 = some 0 ∧
    (∃ t2, lookupTime (runCmds [(3, 0)]
        [(⟨false, 3, none, ["x"], 5, AgentOutcome.ok "y", fun _ => SendOutcome.ok⟩ : Cmd)]) 3
      = some t2 ∧ (0 : ℚ) ≤ t2) := by
  refine ⟨List.chain'_singleton _, rfl, ?_⟩
  exact C6_timestamp_monotone _ [(3, 0)] 3 0 (List.chain'_singleton _) rfl

/-- C7: an agent failure with description `desc` makes the handler reply
exactly `"Knoll encountered an error: " ++ desc` (so for "timeout":
`"Knoll encountered an error: timeout"`), send nothing else, and return
normally (provided the reply channel does not itself reject that
reply). -/
theorem C7_agent_error (st : RateState) (uid : Int) (fn : Option String)
    (args : List String) (now : ℚ) (channel : ℕ → SendOutcome) (desc : String)
    (hrl : rateLimited st uid now = false)
    (hq : String.intercalate " " args ≠ "")
    (hch : ∀ r, channel 0 ≠ SendOutcome.rejected r) :
    attemptsOf (ask st false uid fn args now (AgentOutcome.err desc) channel).events
      = ["Knoll encountered an error: " ++ desc] ∧
    (ask st false uid fn args now (AgentOutcome.err desc) channel).crash = none := by
  rw [ask_eq_askValidated st uid fn args now (AgentOutcome.err desc) channel hrl]
  obtain ⟨hev, hcr⟩ := askValidated_err_events st uid (fn.getD "Unknown")
    (String.intercalate " " args) desc now channel hq
  constructor
  · rw [hev, attemptsOf_append]
    have h1 : attemptsOf [Event.wrote uid now,
        Event.agentCall (String.intercalate " " args)] = [] := rfl
    rw [h1, List.nil_append, genericErrorTail_attempts]
    rfl
  · rw [hcr]
    exact genericErrorTail_crash_of_not_rejected _ _ _ _ hch

/-- Witness for C7, at Scenario 5: the agent raises "timeout" and the
single reply is exactly `"Knoll encountered an error: timeout"`. -/
theorem C7_agent_error_witness :
    (rateLimited [] 42 0 = false ∧ String.intercalate " " ["ping"] ≠ "" ∧
      (∀ r, (fun _ => SendOutcome.ok) 0 ≠ SendOutcome.rejected r)) ∧
    attemptsOf (ask [] false 42 none ["ping"] 0 (AgentOutcome.err "timeout")
        (fun _ => SendOutcome.ok)).events
      = ["Knoll encountered an error: timeout"] := by
  have h := C7_agent_error [] 42 none ["ping"] 0 (fun _ => SendOutcome.ok) "timeout"
    rfl (by decide) (fun r hc => by cases hc)
  refine ⟨⟨rfl, by decide, fun r hc => by cases hc⟩, ?_⟩
  rw [h.1]
  rfl

/-- C8: a `RetryAfter` overload from the reply channel never escapes the
dispatch step. While sending chunk `i` of a chunked answer it aborts
the remaining chunks (exactly the first `i+1` chunks are attempted,
none retried) and the overload is reported with its suggested wait in a
warning; for a short (non-chunked) answer exactly one best-effort
fallback notice is attempted and any failure of that fallback is
swallowed. -/
theorem C8_overload (st : RateState) (uid : Int) (fn : Option String)
    (args : List String) (now : ℚ) (answer : String) (channel : ℕ → SendOutcome)
    (i n : ℕ)
    (hrl : rateLimited st uid now = false)
    (hq : String.intercalate " " args ≠ "") :
    (answer.length > 4096 →
      (∀ j, j < i → channel j = SendOutcome.ok) →
      channel i = SendOutcome.retryAfter n →
      i < (dispatchTexts answer).length →
      attemptsOf (ask st false uid fn args now (AgentOutcome.ok answer) channel).events
          = (dispatchTexts answer).take (i + 1) ∧
        Event.warnLog (chunkRetryWarn i n)
          ∈ (ask st false uid fn args now (AgentOutcome.ok answer) channel).events ∧
        (ask st false uid fn args now (AgentOutcome.ok answer) channel).crash = none) ∧
    (¬ answer.length > 4096 →
      channel 0 = SendOutcome.retryAfter n →
      attemptsOf (ask st false uid fn args now (AgentOutcome.ok answer) channel).events
          = [answer, fallbackMsg n] ∧
        (ask st false uid fn args now (AgentOutcome.ok answer) channel).crash = none) := by
  rw [ask_eq_askValidated st uid fn args now (AgentOutcome.ok answer) channel hrl]
  constructor
  · intro hlen hok hov hcount
    have hd : dispatchTexts answer = (sliceChunks answer.data 4096).map String.mk := by
      simp only [dispatchTexts]
      rw [if_pos hlen]
    have hcount' : i < ((sliceChunks answer.data 4096).map String.mk).length := by
      rw [← hd]
      exact hcount
    have hok0 : ∀ j, j < i → channel (0 + j) = SendOutcome.ok := by
      intro j hj
      simpa using hok j hj
    have hov0 : channel (0 + i) = SendOutcome.retryAfter n := by simpa using hov
    obtain ⟨ha, he, hm⟩ := sendChunks_overload channel n
      ((sliceChunks answer.data 4096).map String.mk) 0 i hok0 hov0 hcount'
    obtain ⟨hev, hcr⟩ := askValidated_ok_long_events st uid (fn.getD "Unknown")
      (String.intercalate " " args) answer now channel hq hlen (Or.inr he)
    refine ⟨?_, ?_, hcr⟩
    · rw [hev, attemptsOf_append]
      have h1 : attemptsOf [Event.wrote uid now,
          Event.agentCall (String.intercalate " " args), Event.slept 1] = [] := rfl
      rw [h1, List.nil_append, ha, hd]
    · rw [hev]
      apply List.mem_append_right
      simpa using hm
  · intro hlen hov
    exact askValidated_ok_short_overload st uid (fn.getD "Unknown")
      (String.intercalate " " args) answer now n channel hq hlen hov

/-- Witness for C8: a 4097-character answer whose second chunk send hits
`RetryAfter 7` (only the first two chunks are attempted), and a short
answer whose send hits `RetryAfter 9` (answer attempt plus one fallback
notice, handler returns normally). -/
theorem C8_overload_witness :
    ((String.mk (List.replicate 4097 'b')).length > 4096 ∧
      (fun k => if k = 0 then SendOutcome.ok else SendOutcome.retryAfter 7) 1
        = SendOutcome.retryAfter 7 ∧
      1 < (dispatchTexts (String.mk (List.replicate 4097 'b'))).length ∧
      attemptsOf (ask [] false 1 none ["q"] 0
          (AgentOutcome.ok (String.mk (List.replicate 4097 'b')))
          (fun k => if k = 0 then SendOutcome.ok else SendOutcome.retryAfter 7)).events
        = (dispatchTexts (String.mk (List.replicate 4097 'b'))).take 2 ∧
      (ask [] false 1 none ["q"] 0 (AgentOutcome.ok (String.mk (List.replicate 4097 'b')))
          (fun k => if k = 0 then SendOutcome.ok else SendOutcome.retryAfter 7)).crash
        = none) ∧
    (¬ ("short".length > 4096) ∧
      attemptsOf (ask [] false 1 none ["q"] 0 (AgentOutcome.ok "short")
          (fun _ => SendOutcome.retryAfter 9)).events = ["short", fallbackMsg 9] ∧
      (ask [] false 1 none ["q"] 0 (AgentOutcome.ok "short")
          (fun _ => SendOutcome.retryAfter 9)).crash = none) := by
  have hlen : (String.mk (List.replicate 4097 'b')).length > 4096 := by
    rw [length_mk, List.length_replicate]
    norm_num
  have hne : String.mk (List.replicate 4097 'b') ≠ "" :=
    ne_empty_of_length_pos _ (by omega)
  have hcount : 1 < (dispatchTexts (String.mk (List.replicate 4097 'b'))).length := by
    rw [dispatchTexts_length _ hne, length_mk, List.length_replicate]
    norm_num
  obtain ⟨hA, -⟩ := C8_overload [] 1 none ["q"] 0 (String.mk (List.replicate 4097 'b'))
    (fun k => if k = 0 then SendOutcome.ok else SendOutcome.retryAfter 7) 1 7 rfl (by decide)
  obtain ⟨h1, h2, h3⟩ := hA hlen
    (fun j hj => by
      have hj0 : j = 0 := by omega
      subst hj0
      rfl)
    rfl hcount
  obtain ⟨-, hB⟩ := C8_overload [] 1 none ["q"] 0 "short"
    (fun _ => SendOutcome.retryAfter 9) 0 9 rfl (by decide)
  obtain ⟨h4, h5⟩ := hB (by decide) rfl
  exact ⟨⟨hlen, rfl, hcount, h1, h3⟩, by decide, h4, h5⟩

/-- Counterexample to C9: when the reply channel rejects the short
answer "ans" for the non-overload reason "boom", the handler makes a
further reply attempt (the generic error message) — the claim's "no
further reply attempt is made" is false. -/
theorem C9_counterexample :
    attemptsOf (ask [] false 9 none ["q"] 0 (AgentOutcome.ok "ans")
        (fun k => if k = 0 then SendOutcome.rejected "boom" else SendOutcome.ok)).events
      = ["ans", "Knoll encountered an error: boom"] := by
  rfl

/-- C9 (amended): a non-overload rejection during dispatch of a short
answer is caught by the handler's generic error path: the failure is
logged at error level and exactly one further reply attempt is made,
carrying an error message that embeds the rejection reason; an overload
of that attempt is swallowed and the handler returns normally. -/
theorem C9_rejected_dispatch (st : RateState) (uid : Int) (fn : Option String)
    (args : List String) (now : ℚ) (answer reason : String) (channel : ℕ → SendOutcome)
    (hrl : rateLimited st uid now = false)
    (hq : String.intercalate " " args ≠ "")
    (hlen : ¬ answer.length > 4096)
    (hch : channel 0 = SendOutcome.rejected reason) :
    attemptsOf (ask st false uid fn args now (AgentOutcome.ok answer) channel).events
      = [answer, errorMsg reason] ∧
    Event.errorLog (processErrorLog (fn.getD "Unknown") reason)
      ∈ (ask st false uid fn args now (AgentOutcome.ok answer) channel).events ∧
    ((∀ r, channel 1 ≠ SendOutcome.rejected r) →
      (ask st false uid fn args now (AgentOutcome.ok answer) channel).crash = none) := by
  rw [ask_eq_askValidated st uid fn args now (AgentOutcome.ok answer) channel hrl]
  obtain ⟨hev, hcr⟩ := askValidated_ok_short_rejected st uid (fn.getD "Unknown")
    (String.intercalate " " args) answer reason now channel hq hlen hch
  refine ⟨?_, ?_, ?_⟩
  · rw [hev, attemptsOf_append]
    have h1 : attemptsOf [Event.wrote uid now,
        Event.agentCall (String.intercalate " " args), Event.slept 1,
        Event.attempt answer] = [answer] := rfl
    rw [h1, genericErrorTail_attempts]
    rfl
  · rw [hev]
    exact List.mem_append_right _ (genericErrorTail_errorLog _ _ _ _)
  · intro hch1
    rw [hcr]
    exact genericErrorTail_crash_of_not_rejected _ _ _ _ hch1

/-- Witness for C9 (amended): rejection reason "boom", error reply goes
through, handler returns normally. -/
theorem C9_rejected_dispatch_witness :
    (rateLimited [] 9 0 = false ∧ String.intercalate " " ["q"] ≠ "" ∧
      ¬ ("ans".length > 4096) ∧
      (fun k => if k = 0 then SendOutcome.rejected "boom" else SendOutcome.ok) 0
        = SendOutcome.rejected "boom") ∧
    (attemptsOf (ask [] false 9 none ["q"] 0 (AgentOutcome.ok "ans")
        (fun k => if k = 0 then SendOutcome.rejected "boom" else SendOutcome.ok)).events
      = ["ans", errorMsg "boom"] ∧
    (ask [] false 9 none ["q"] 0 (AgentOutcome.ok "ans")
        (fun k => if k = 0 then SendOutcome.rejected "boom" else SendOutcome.ok)).crash
      = none) := by
  obtain ⟨h1, h2, h3⟩ := C9_rejected_dispatch [] 9 none ["q"] 0 "ans" "boom"
    (fun k => if k = 0 then SendOutcome.rejected "boom" else SendOutcome.ok)
    rfl (by decide) (by decide) rfl
  exact ⟨⟨rfl, by decide, by decide, rfl⟩, h1, h3 (fun r hc => by cases hc)⟩

/-- C10: two inbound commands identical except for the sender's display
name (including a missing first name, which only defaults the logged
name to "Unknown") produce the same replies, the same agent query, the
same RateGate state, the same non-log trace and the same crash
behaviour — the display name influences log lines only. -/
theorem C10_display_name_noninterference (st : RateState) (sd : Bool) (uid : Int)
    (fn1 fn2 : Option String) (args : List String) (now : ℚ) (agent : AgentOutcome)
    (channel : ℕ → SendOutcome) :
    (ask st sd uid fn1 args now agent channel).state
        = (ask st sd uid fn2 args now agent channel).state ∧
    attemptsOf (ask st sd uid fn1 args now agent channel).events
        = attemptsOf (ask st sd uid fn2 args now agent channel).events ∧
    agentCallsOf (ask st sd uid fn1 args now agent channel).events
        = agentCallsOf (ask st sd uid fn2 args now agent channel).events ∧
    nonLogEvents (ask st sd uid fn1 args now agent channel).events
        = nonLogEvents (ask st sd uid fn2 args now agent channel).events ∧
    (ask st sd uid fn1 args now agent channel).crash
        = (ask st sd uid fn2 args now agent channel).crash := by
  cases sd with
  | true =>
    have he : ask st true uid fn1 args now agent channel
        = ask st true uid fn2 args now agent channel := rfl
    rw [he]
    exact ⟨rfl, rfl, rfl, rfl, rfl⟩
  | false =>
    by_cases hrl : rateLimited st uid now
    · have he : ask st false uid fn1 args now agent channel
          = ask st false uid fn2 args now agent channel := by
        simp [ask, hrl]
      rw [he]
      exact ⟨rfl, rfl, rfl, rfl, rfl⟩
    · have hrl' : rateLimited st uid now = false := by simpa using hrl
      rw [ask_eq_askValidated st uid fn1 args now agent channel hrl',
        ask_eq_askValidated st uid fn2 args now agent channel hrl']
      exact askValidated_name_indep st uid (fn1.getD "Unknown") (fn2.getD "Unknown")
        (String.intercalate " " args) now agent channel

end Knoll
